import Mathlib

/-!
Verification of the MindWave headset serial decoder (mindwave.py).

The development shallowly embeds the three core pieces of the code:

* the frame synchronizer of `Headset.DongleListener.run` (sync hunting,
  length-byte sentinel handling, payload extraction, checksum computation),
  as `framePackets` over a finite byte stream;
* the payload decoder of `Headset.DongleListener.parse_payload`
  (excode stripping, single-byte and multi-byte rows, truncation behavior),
  as `decode` producing a list of `Row`;
* the event dispatch of `parse_payload` (state mutation plus callback
  firing against the `Headset` object), as `dispatchRow` / `dispatchRows`
  over `HState`, with one `Ev` value per fired callback kind.

Bytes are modelled as `Nat` (the serial layer only ever produces values
below 256; where a claim needs the byte bound it appears as a hypothesis).
Recursions that walk a byte list by a data-dependent amount are written
with an explicit fuel argument (`framePacketsF`, `decodeF`) so that all
definitions compute by kernel reduction; the wrappers instantiate the fuel
with the stream length plus one, and fuel-irrelevance lemmas recover the
loop semantics.
-/

/-- Status strings assigned to `self.headset.status` in mindwave.py
(STATUS_CONNECTED, STATUS_SCANNING, STATUS_STANDBY). The Python initial
value `None` is modelled by `Option Status`. -/
inductive Status where
  | connected
  | scanning
  | standby
  deriving DecidableEq

/-- One callback invocation kind, with the argument the Python code passes
to the registered handlers (beyond the headset object itself). -/
inductive Ev where
  | poorSignal (level : Nat)
  | goodSignal (level : Nat)
  | attention (level : Nat)
  | meditation (level : Nat)
  | blink (strength : Nat)
  | rawValue (sample : Int)
  | connected
  | notFound (id : Option String)
  | disconnected (id : String)
  | requestDenied
  | scanning
  | standby
  deriving DecidableEq

/-- The mutable fields of the `Headset` object that `parse_payload`
reads or writes. -/
structure HState where
  headsetId : Option String
  poorSignal : Nat
  attention : Nat
  meditation : Nat
  blink : Nat
  rawValue : Int
  status : Option Status
  deriving DecidableEq

/-- The field values set by `Headset.__init__` (headset_id defaulting to
None): poor_signal 255, attention 0, meditation 0, blink 0, raw_value 0,
status None. -/
def initState : HState :=
  { headsetId := none, poorSignal := 255, attention := 0, meditation := 0,
    blink := 0, rawValue := 0, status := none }

/-- One decoded data row: the count of EXCODE (0x55) prefix bytes, the
code byte, the declared value length (1 for single-byte codes, the
vlength byte for multi-byte codes), and the value bytes actually read. -/
structure Row where
  excodeCount : Nat
  code : Nat
  vlen : Nat
  value : List Nat
  deriving DecidableEq

/-- Result of parsing one payload: the final headset state, the callbacks
fired in order, and whether parsing ran to completion without an uncaught
exception (`ok = false` models an IndexError escaping `parse_payload`). -/
structure POut where
  state : HState
  events : List Ev
  ok : Bool
  deriving DecidableEq

/-- Lowercase hex digit, as produced by Python's `bytes.hex()`. -/
def hexDigit (n : Nat) : Char :=
  if n < 10 then Char.ofNat (48 + n) else Char.ofNat (87 + n)

/-- Two lowercase hex digits of one byte. -/
def byteHex (b : Nat) : List Char :=
  [hexDigit (b % 256 / 16), hexDigit (b % 16)]

/-- Python `value.hex()`: lowercase hex string of a byte sequence. -/
def bytesHex (l : List Nat) : String :=
  (l.map byteHex).flatten.asString

/-- Checksum computed in `run` (mindwave.py lines 75-77):
`val = sum(b for b in payload[:-1]); val &= 0xff; val = ~val & 0xff`.
Note the sum ranges over `payload[:-1]`, all payload bytes except the
last one. -/
def chksum (payload : List Nat) : Nat :=
  ((-(((payload.dropLast.sum % 256 : Nat) : Int)) - 1) % 256).toNat

/-- Modelled from the spec wording, for comparison with `chksum`: the
checksum as the spec describes it, `(~(sum(payload bytes) mod 256)) mod 256`,
summing ALL payload bytes. -/
def chksumAllBytes (payload : List Nat) : Nat :=
  ((-(((payload.sum % 256 : Nat) : Int)) - 1) % 256).toNat

/-- The length-byte loop of `run` (lines 63-67): keep consuming bytes while
they equal 170; return the first non-170 byte and the rest of the stream,
or `none` when the stream runs out. -/
def dropSentinels : List Nat → Option (Nat × List Nat)
  | [] => none
  | b :: r => if b = 170 then dropSentinels r else some (b, r)

/-- Fuel-indexed body of the packet loop of `run` (lines 57-82): hunt for
two consecutive 0xAA (= 170) sync bytes, read a length byte through
`dropSentinels`, discard the attempt when the length exceeds 170, then
read `plength` payload bytes plus one checksum byte and emit the payload
(the checksum comparison is disabled in the code, so every complete
packet is emitted). A read past the end of the finite stream models the
blocking `s.read` never returning: no further packets. -/
def framePacketsF : Nat → List Nat → List (List Nat)
  | 0, _ => []
  | fuel + 1, p =>
    match p with
    | [] => []
    | b :: rest =>
      if b = 170 then
        match rest with
        | [] => []
        | b2 :: rest2 =>
          if b2 = 170 then
            match dropSentinels rest2 with
            | none => []
            | some (plen, rest3) =>
              if 170 < plen then framePacketsF fuel rest3
              else if plen + 1 ≤ rest3.length then
                rest3.take plen :: framePacketsF fuel (rest3.drop (plen + 1))
              else []
          else framePacketsF fuel rest2
      else framePacketsF fuel rest

/-- Payloads emitted by the listener loop on a finite byte stream. Every
loop iteration consumes at least one byte, so fuel `length + 1` always
suffices (see `framePacketsF_congr`). -/
def framePackets (s : List Nat) : List (List Nat) :=
  framePacketsF (s.length + 1) s

/-- A framed packet as described by the wire format: two sync bytes, the
payload length byte, the payload, and one trailing checksum byte. -/
def mkPacket (p : List Nat) (c : Nat) : List Nat :=
  170 :: 170 :: p.length :: (p ++ [c])

/-- A byte list with no two consecutive 170 (0xAA) bytes. -/
def noTwoSync : List Nat → Bool
  | a :: b :: l => (!(a == 170 && b == 170)) && noTwoSync (b :: l)
  | _ => true

/-- The excode-counting loop of `parse_payload` (lines 94-108): strip
leading EXCODE (0x55 = 85) bytes, returning their count, the code byte and
the remaining payload; `none` when the payload is exhausted first (which
ends parsing, matching the code where a trailing run of EXCODE bytes
leaves `code = 0x55` and the subsequent value read breaks the loop). -/
def afterExcodes : List Nat → Option (Nat × Nat × List Nat)
  | [] => none
  | b :: r =>
    if b = 85 then
      match afterExcodes r with
      | none => none
      | some (k, c, rest) => some (k + 1, c, rest)
    else some (0, b, r)

/-- Fuel-indexed body of the row-reading loop of `parse_payload`
(lines 92-154): single-byte codes (< 0x80) read exactly one value byte;
multi-byte codes read a vlength byte and then `vlength` value bytes via
Python slicing `payload[index:index+vlength]`, which silently yields fewer
bytes on a truncated payload. Each of the `except IndexError: break`
truncation exits produces the empty row list. -/
def decodeF : Nat → List Nat → List Row
  | 0, _ => []
  | fuel + 1, p =>
    match afterExcodes p with
    | none => []
    | some (k, code, rest) =>
      if code < 128 then
        match rest with
        | [] => []
        | v :: rest' => ⟨k, code, 1, [v]⟩ :: decodeF fuel rest'
      else
        match rest with
        | [] => []
        | n :: rest' => ⟨k, code, n, rest'.take n⟩ :: decodeF fuel (rest'.drop n)

/-- Rows decoded from one payload. Every loop iteration consumes at least
two bytes, so fuel `length + 1` always suffices (see `decodeF_congr`). -/
def decode (p : List Nat) : List Row :=
  decodeF (p.length + 1) p

/-- Signed 16-bit reconstruction of `parse_payload` lines 159-161:
`raw = value[0]*256 + value[1]; if raw >= 32768: raw -= 65536`. -/
def sint16 (a b : Nat) : Int :=
  if 32768 ≤ a * 256 + b then ((a * 256 + b : Nat) : Int) - 65536
  else ((a * 256 + b : Nat) : Int)

/-- Events fired by the POOR_SIGNAL branch (lines 118-129), given the old
stored value and the incoming value byte: poor-signal handlers run when
the new value is positive and the old was zero, good-signal handlers when
the new value is zero and the old was positive; both receive the new
value. -/
def poorRowEvents (old v : Nat) : List Ev :=
  if 0 < v then (if old = 0 then [Ev.poorSignal v] else [])
  else (if 0 < old then [Ev.goodSignal v] else [])

/-- Effect of one decoded row on the headset state (the dispatch arms of
`parse_payload`, lines 110-208). Returns `none` exactly where the Python
code raises an uncaught IndexError: the RAW_VALUE arm reads `value[0]` and
`value[1]` without a guard (lines 158-161), so a RAW_VALUE row whose value
holds fewer than two bytes escapes `parse_payload` with an exception.
Unrecognized codes fall through with no effect. -/
def dispatchRow (s : HState) (r : Row) : Option (HState × List Ev) :=
  if r.code < 128 then
    let v := r.value.headD 0
    if r.code = 2 then
      some ({ s with poorSignal := v }, poorRowEvents s.poorSignal v)
    else if r.code = 4 then
      some ({ s with attention := v }, [Ev.attention v])
    else if r.code = 5 then
      some ({ s with meditation := v }, [Ev.meditation v])
    else if r.code = 22 then
      some ({ s with blink := v }, [Ev.blink v])
    else some (s, [])
  else
    if r.code = 128 then
      match r.value with
      | a :: b :: _ =>
        some ({ s with rawValue := sint16 a b }, [Ev.rawValue (sint16 a b)])
      | _ => none
    else if r.code = 208 then
      some ({ s with status := some Status.connected,
                     headsetId := some (bytesHex r.value) },
            if s.status = some Status.connected then [] else [Ev.connected])
    else if r.code = 209 then
      some (s, [Ev.notFound (if 0 < r.vlen then some (bytesHex r.value) else none)])
    else if r.code = 210 then
      some (s, [Ev.disconnected (bytesHex r.value)])
    else if r.code = 211 then
      some (s, [Ev.requestDenied])
    else if r.code = 212 then
      match r.value.head? with
      | some b =>
        if b ≠ 0 then
          some ({ s with status := some Status.scanning },
                if s.status = some Status.scanning then [] else [Ev.scanning])
        else
          some ({ s with status := some Status.standby },
                if s.status = some Status.standby then [] else [Ev.standby])
      | none =>
        some ({ s with status := some Status.standby },
              if s.status = some Status.standby then [] else [Ev.standby])
    else some (s, [])

/-- Dispatch a list of decoded rows in order, accumulating fired events;
an uncaught exception (`dispatchRow = none`) stops dispatch with
`ok = false`, keeping the effects of the rows already applied. -/
def dispatchRows : HState → List Row → POut
  | s, [] => ⟨s, [], true⟩
  | s, r :: rs =>
    match dispatchRow s r with
    | none => ⟨s, [], false⟩
    | some (s', evs) =>
      let out := dispatchRows s' rs
      ⟨out.state, evs ++ out.events, out.ok⟩

/-- The complete effect of `Headset.DongleListener.parse_payload` on the
headset state: decode the payload into rows and dispatch them in order.
The decode side never consults the state, so the composition agrees with
the interleaved loop of the Python code. -/
def parsePayload (s : HState) (p : List Nat) : POut :=
  dispatchRows s (decode p)

/-- Recognizer for poor-signal-entered events. -/
def isPoorEv : Ev → Bool
  | Ev.poorSignal _ => true
  | _ => false

/-- Recognizer for good-signal-restored events. -/
def isGoodEv : Ev → Bool
  | Ev.goodSignal _ => true
  | _ => false

/-- Recognizer for headset-connected events. -/
def isConnEv : Ev → Bool
  | Ev.connected => true
  | _ => false

/-- A payload consisting only of POOR_SIGNAL (0x02) rows with the given
value bytes. -/
def poorPayload : List Nat → List Nat
  | [] => []
  | v :: vs => 2 :: v :: poorPayload vs

/-- Spec-side trace for POOR_SIGNAL rows: the events each row fires,
computed from the zero/non-zero crossing rule, threading the stored value
through the rows. -/
def poorTrace : Nat → List Nat → List (List Ev)
  | _, [] => []
  | old, v :: vs => poorRowEvents old v :: poorTrace v vs

/-- A payload consisting only of STANDBY_SCAN (0xd4) rows, each with
vlength 1 and the given value byte. -/
def stdPayload : List Nat → List Nat
  | [] => []
  | v :: vs => 212 :: 1 :: v :: stdPayload vs

/-- Events fired by one STANDBY_SCAN row with a one-byte value, given the
current status: edge-triggered on the status assignment. -/
def statusRowEvents (st : Option Status) (v : Nat) : List Ev :=
  if v ≠ 0 then (if st = some Status.scanning then [] else [Ev.scanning])
  else (if st = some Status.standby then [] else [Ev.standby])

/-- Spec-side trace for STANDBY_SCAN rows: the events each row fires,
threading the status through the rows. -/
def statusTrace : Option Status → List Nat → List (List Ev)
  | _, [] => []
  | st, v :: vs =>
    statusRowEvents st v ::
      statusTrace (if v ≠ 0 then some Status.scanning else some Status.standby) vs

theorem dropSentinels_sub :
    ∀ (l : List Nat) (a : Nat) (r : List Nat),
      dropSentinels l = some (a, r) → r.length < l.length := by
  intro l
  induction l with
  | nil => intro a r h; simp [dropSentinels] at h
  | cons b t ih =>
    intro a r h
    by_cases hb : b = 170
    · simp [dropSentinels, hb] at h
      have := ih a r h
      simp [List.length_cons]
      omega
    · simp [dropSentinels, hb] at h
      obtain ⟨_, hr⟩ := h
      subst hr
      simp [List.length_cons]

theorem afterExcodes_sub :
    ∀ (l : List Nat) (k c : Nat) (r : List Nat),
      afterExcodes l = some (k, c, r) → r.length < l.length := by
  intro l
  induction l with
  | nil => intro k c r h; simp [afterExcodes] at h
  | cons b t ih =>
    intro k c r h
    by_cases hb : b = 85
    · simp only [afterExcodes, hb, if_pos rfl] at h
      cases h' : afterExcodes t with
      | none => rw [h'] at h; simp at h
      | some x =>
        obtain ⟨k', c', r'⟩ := x
        rw [h'] at h
        simp at h
        obtain ⟨_, _, hr⟩ := h
        subst hr
        have := ih k' c' r' h'
        simp [List.length_cons]
        omega
    · simp [afterExcodes, hb] at h
      obtain ⟨_, _, hr⟩ := h
      subst hr
      simp [List.length_cons]

theorem framePacketsF_congr :
    ∀ (f1 f2 : Nat) (s : List Nat), s.length < f1 → s.length < f2 →
      framePacketsF f1 s = framePacketsF f2 s := by
  intro f1
  induction f1 with
  | zero => intro f2 s h1 _; exact absurd h1 (Nat.not_lt_zero _)
  | succ f ih =>
    intro f2 s h1 h2
    cases f2 with
    | zero => exact absurd h2 (Nat.not_lt_zero _)
    | succ g =>
      cases s with
      | nil => rfl
      | cons b rest =>
        simp only [framePacketsF]
        by_cases hb : b = 170
        · simp only [hb, if_true, eq_self_iff_true]
          cases rest with
          | nil => rfl
          | cons b2 rest2 =>
            by_cases hb2 : b2 = 170
            · simp only [hb2, if_true, eq_self_iff_true]
              cases hd : dropSentinels rest2 with
              | none => rfl
              | some x =>
                obtain ⟨plen, rest3⟩ := x
                have hr3 : rest3.length < rest2.length := dropSentinels_sub rest2 plen rest3 hd
                simp only [List.length_cons] at h1 h2
                by_cases hp : 170 < plen
                · simp only [hp, if_true]
                  exact ih g rest3 (by omega) (by omega)
                · by_cases hlen : plen + 1 ≤ rest3.length
                  · simp only [hp, hlen, if_true, if_false]
                    have hdrop : (rest3.drop (plen + 1)).length < f := by
                      simp [List.length_drop]; omega
                    have hdrop2 : (rest3.drop (plen + 1)).length < g := by
                      simp [List.length_drop]; omega
                    rw [ih g (rest3.drop (plen + 1)) hdrop hdrop2]
                  · simp only [hp, hlen, if_true, if_false]
            · simp only [hb2, if_neg hb2]
              simp only [List.length_cons] at h1 h2
              exact ih g rest2 (by omega) (by omega)
        · simp only [hb, if_neg hb]
          simp only [List.length_cons] at h1 h2
          exact ih g rest (by omega) (by omega)

theorem framePacketsF_inv (fuel : Nat) (s : List Nat) (h : s.length < fuel) :
    framePacketsF fuel s = framePackets s :=
  framePacketsF_congr fuel (s.length + 1) s h (Nat.lt_succ_self _)

theorem fp_skip (b : Nat) (s : List Nat) (hb : b ≠ 170) :
    framePackets (b :: s) = framePackets s := by
  show framePacketsF (s.length + 1 + 1) (b :: s) = framePackets s
  rw [framePacketsF.eq_def]
  simp only [if_neg hb]
  rfl

theorem fp_skip2 (b : Nat) (s : List Nat) (hb : b ≠ 170) :
    framePackets (170 :: b :: s) = framePackets s := by
  show framePacketsF (s.length + 2 + 1) (170 :: b :: s) = framePackets s
  rw [framePacketsF.eq_def]
  simp only [if_neg hb, if_true, eq_self_iff_true]
  exact framePacketsF_inv (s.length + 2) s (by omega)

theorem fp_packet (rest2 p : List Nat) (c : Nat) (t : List Nat)
    (hd : dropSentinels rest2 = some (p.length, p ++ c :: t))
    (hL : p.length ≤ 169) :
    framePackets (170 :: 170 :: rest2) = p :: framePackets t := by
  show framePacketsF (rest2.length + 2 + 1) (170 :: 170 :: rest2) = _
  rw [framePacketsF.eq_def]
  have h1 : ¬ 170 < p.length := by omega
  have h2 : p.length + 1 ≤ (p ++ c :: t).length := by
    simp [List.length_append]
  have ht : (p ++ c :: t).take p.length = p := List.take_left p (c :: t)
  have hdp : (p ++ c :: t).drop (p.length + 1) = t := by
    have hcons : p ++ c :: t = (p ++ [c]) ++ t := by simp
    rw [hcons]
    simp
  have hr3 : (p ++ c :: t).length < rest2.length :=
    dropSentinels_sub rest2 p.length (p ++ c :: t) hd
  simp only [List.length_append, List.length_cons] at hr3
  simp only [hd, if_true, eq_self_iff_true, h1, if_false, h2, ht, hdp]
  rw [framePacketsF_inv (rest2.length + 2) t (by omega)]

theorem fp_mk (p : List Nat) (c : Nat) (t : List Nat) (hL : p.length ≤ 169) :
    framePackets (mkPacket p c ++ t) = p :: framePackets t := by
  have he : mkPacket p c ++ t = 170 :: 170 :: (p.length :: (p ++ c :: t)) := by
    simp [mkPacket]
  rw [he]
  refine fp_packet _ p c t ?_ hL
  have h170 : p.length ≠ 170 := by omega
  rw [dropSentinels.eq_def]
  simp only [if_neg h170]

theorem decodeF_succ (fuel : Nat) (p : List Nat) :
    decodeF (fuel + 1) p =
      match afterExcodes p with
      | none => []
      | some (k, code, rest) =>
        if code < 128 then
          match rest with
          | [] => []
          | v :: rest' => ⟨k, code, 1, [v]⟩ :: decodeF fuel rest'
        else
          match rest with
          | [] => []
          | n :: rest' => ⟨k, code, n, rest'.take n⟩ :: decodeF fuel (rest'.drop n) :=
  rfl

theorem decodeF_congr :
    ∀ (f1 f2 : Nat) (p : List Nat), p.length < f1 → p.length < f2 →
      decodeF f1 p = decodeF f2 p := by
  intro f1
  induction f1 with
  | zero => intro f2 p h1 _; exact absurd h1 (Nat.not_lt_zero _)
  | succ f ih =>
    intro f2 p h1 h2
    cases f2 with
    | zero => exact absurd h2 (Nat.not_lt_zero _)
    | succ g =>
      rw [decodeF_succ, decodeF_succ]
      cases hA : afterExcodes p with
      | none => rfl
      | some x =>
        obtain ⟨k, code, rest⟩ := x
        have hrest : rest.length < p.length := afterExcodes_sub p k code rest hA
        by_cases hc : code < 128
        · simp only [hc, if_true]
          cases rest with
          | nil => rfl
          | cons v rest' =>
            simp only [List.length_cons] at hrest
            show (⟨k, code, 1, [v]⟩ : Row) :: decodeF f rest' =
              ⟨k, code, 1, [v]⟩ :: decodeF g rest'
            rw [ih g rest' (by omega) (by omega)]
        · simp only [hc, if_false]
          cases rest with
          | nil => rfl
          | cons n rest' =>
            simp only [List.length_cons] at hrest
            have hdl : (rest'.drop n).length ≤ rest'.length := by
              simp [List.length_drop]
            show (⟨k, code, n, rest'.take n⟩ : Row) :: decodeF f (rest'.drop n) =
              ⟨k, code, n, rest'.take n⟩ :: decodeF g (rest'.drop n)
            rw [ih g (rest'.drop n) (by omega) (by omega)]

theorem decodeF_inv (fuel : Nat) (p : List Nat) (h : p.length < fuel) :
    decodeF fuel p = decode p :=
  decodeF_congr fuel (p.length + 1) p h (Nat.lt_succ_self _)

theorem decode_single (c v : Nat) (rest : List Nat) (h85 : c ≠ 85)
    (h128 : c < 128) :
    decode (c :: v :: rest) = ⟨0, c, 1, [v]⟩ :: decode rest := by
  have hA : afterExcodes (c :: v :: rest) = some (0, c, v :: rest) := by
    rw [afterExcodes.eq_def]
    simp [h85]
  show decodeF (rest.length + 2 + 1) (c :: v :: rest) = _
  rw [decodeF_succ, hA]
  simp only [h128, if_true]
  rw [decodeF_inv (rest.length + 2) rest (by omega)]

theorem decode_multi (c n : Nat) (rest : List Nat) (hc : 128 ≤ c) :
    decode (c :: n :: rest) = ⟨0, c, n, rest.take n⟩ :: decode (rest.drop n) := by
  have h85 : c ≠ 85 := by omega
  have h128 : ¬ c < 128 := by omega
  have hA : afterExcodes (c :: n :: rest) = some (0, c, n :: rest) := by
    rw [afterExcodes.eq_def]
    simp [h85]
  show decodeF (rest.length + 2 + 1) (c :: n :: rest) = _
  rw [decodeF_succ, hA]
  simp only [h128, if_false]
  rw [decodeF_inv (rest.length + 2) (rest.drop n) (by simp [List.length_drop]; omega)]

theorem noTwoSync_tail (a : Nat) (l : List Nat)
    (h : noTwoSync (a :: l) = true) : noTwoSync l = true := by
  cases l with
  | nil => rfl
  | cons b l' =>
    rw [noTwoSync.eq_def] at h
    simp only [Bool.and_eq_true] at h
    exact h.2

theorem noTwoSync_head (b : Nat) (l : List Nat)
    (h : noTwoSync (170 :: b :: l) = true) : b ≠ 170 := by
  rw [noTwoSync.eq_def] at h
  simp only [Bool.and_eq_true, Bool.not_eq_true', Bool.and_eq_false_iff,
    beq_eq_false_iff_ne, ne_eq, beq_iff_eq] at h
  rcases h.1 with h' | h'
  · exact absurd trivial h'
  · exact h'

theorem fp_hunt :
    ∀ (fuelN : Nat) (g : List Nat), g.length ≤ fuelN → noTwoSync g = true →
      ∀ (p : List Nat) (c : Nat) (t : List Nat), p.length ≤ 169 →
        framePackets (g ++ (mkPacket p c ++ t)) = p :: framePackets t := by
  intro fuelN
  induction fuelN with
  | zero =>
    intro g hg _ p c t hp
    have hnil : g = [] := List.eq_nil_of_length_eq_zero (Nat.le_zero.mp hg)
    subst hnil
    simpa using fp_mk p c t hp
  | succ nn ih =>
    intro g hg hsync p c t hp
    cases g with
    | nil => simpa using fp_mk p c t hp
    | cons a g' =>
      by_cases ha : a = 170
      · subst ha
        cases g' with
        | nil =>
          have he : [170] ++ (mkPacket p c ++ t) =
              170 :: 170 :: (170 :: p.length :: (p ++ c :: t)) := by
            simp [mkPacket]
          rw [he]
          refine fp_packet _ p c t ?_ hp
          have h170 : p.length ≠ 170 := by omega
          rw [dropSentinels.eq_def]
          simp only [if_true, eq_self_iff_true]
          rw [dropSentinels.eq_def]
          simp only [if_neg h170]
        | cons b g'' =>
          have hb : b ≠ 170 := noTwoSync_head b g'' hsync
          have he : (170 :: b :: g'') ++ (mkPacket p c ++ t) =
              170 :: b :: (g'' ++ (mkPacket p c ++ t)) := rfl
          rw [he, fp_skip2 b _ hb]
          have hg'' : g''.length ≤ nn := by
            simp only [List.length_cons] at hg
            omega
          exact ih g'' hg'' (noTwoSync_tail b g'' (noTwoSync_tail 170 (b :: g'') hsync))
            p c t hp
      · have he : (a :: g') ++ (mkPacket p c ++ t) =
            a :: (g' ++ (mkPacket p c ++ t)) := rfl
        rw [he, fp_skip a _ ha]
        have hg' : g'.length ≤ nn := by
          simp only [List.length_cons] at hg
          omega
        exact ih g' hg' (noTwoSync_tail a g' hsync) p c t hp

theorem dispatchRows_nil (s : HState) : dispatchRows s [] = ⟨s, [], true⟩ := rfl

theorem dispatchRows_cons (s s' : HState) (evs : List Ev) (r : Row) (rs : List Row)
    (h : dispatchRow s r = some (s', evs)) :
    dispatchRows s (r :: rs) =
      ⟨(dispatchRows s' rs).state, evs ++ (dispatchRows s' rs).events,
        (dispatchRows s' rs).ok⟩ := by
  show (match dispatchRow s r with
        | none => (⟨s, [], false⟩ : POut)
        | some (s', evs) =>
          let out := dispatchRows s' rs
          ⟨out.state, evs ++ out.events, out.ok⟩) = _
  rw [h]

theorem dispatch_poor (s : HState) (v : Nat) :
    dispatchRow s ⟨0, 2, 1, [v]⟩ =
      some ({ s with poorSignal := v }, poorRowEvents s.poorSignal v) := by
  simp [dispatchRow]

theorem poor_aux :
    ∀ (vs : List Nat) (s : HState),
      (parsePayload s (poorPayload vs)).events =
        (poorTrace s.poorSignal vs).flatten := by
  intro vs
  induction vs with
  | nil => intro s; rfl
  | cons v vs ih =>
    intro s
    show (dispatchRows s (decode (2 :: v :: poorPayload vs))).events = _
    rw [decode_single 2 v _ (by omega) (by omega)]
    rw [dispatchRows_cons s { s with poorSignal := v }
      (poorRowEvents s.poorSignal v) _ _ (dispatch_poor s v)]
    have := ih { s with poorSignal := v }
    simp only [parsePayload] at this
    simp only [this]
    rfl

theorem dispatch_std (s : HState) (k n : Nat) (value : List Nat) :
    dispatchRow s ⟨k, 212, n, value⟩ =
      some (if value.headD 0 ≠ 0 then
              ({ s with status := some Status.scanning },
               if s.status = some Status.scanning then [] else [Ev.scanning])
            else
              ({ s with status := some Status.standby },
               if s.status = some Status.standby then [] else [Ev.standby])) := by
  cases value with
  | nil => simp [dispatchRow]
  | cons b rest =>
    by_cases hb : b = 0
    · simp [dispatchRow, hb]
    · simp [dispatchRow, hb]

theorem dispatch_conn (s : HState) (k n : Nat) (value : List Nat) :
    dispatchRow s ⟨k, 208, n, value⟩ =
      some ({ s with status := some Status.connected,
                     headsetId := some (bytesHex value) },
            if s.status = some Status.connected then [] else [Ev.connected]) := by
  simp [dispatchRow]

theorem status_aux :
    ∀ (vs : List Nat) (s : HState),
      (parsePayload s (stdPayload vs)).events =
        (statusTrace s.status vs).flatten := by
  intro vs
  induction vs with
  | nil => intro s; rfl
  | cons v vs ih =>
    intro s
    show (dispatchRows s (decode (212 :: 1 :: (v :: stdPayload vs)))).events = _
    rw [decode_multi 212 1 _ (by omega)]
    have ht : (v :: stdPayload vs).take 1 = [v] := rfl
    have hd : (v :: stdPayload vs).drop 1 = stdPayload vs := rfl
    rw [ht, hd]
    have hrow : dispatchRow s ⟨0, 212, 1, [v]⟩ =
        some ((if v ≠ 0 then { s with status := some Status.scanning }
               else { s with status := some Status.standby }),
              statusRowEvents s.status v) := by
      rw [dispatch_std]
      by_cases hv : v = 0 <;> simp [hv, statusRowEvents]
    rw [dispatchRows_cons _ _ _ _ _ hrow]
    have hih := ih (if v ≠ 0 then { s with status := some Status.scanning }
                    else { s with status := some Status.standby })
    simp only [parsePayload] at hih
    have hst : (if v ≠ 0 then { s with status := some Status.scanning }
                else { s with status := some Status.standby }).status =
        (if v ≠ 0 then some Status.scanning else some Status.standby) := by
      by_cases hv : v = 0 <;> simp [hv]
    rw [hst] at hih
    simp only [hih]
    rfl

/-- C1: the checksum the listener computes for the payload consisting of the
bytes 0x04 and 0x32 is 0xFB (251), not the 0xC9 (201) the spec claims,
because line 75 of mindwave.py sums `payload[:-1]`, omitting the last
payload byte, while the spec formula sums all payload bytes
(`chksumAllBytes`). -/
theorem checksum_omits_last_payload_byte :
    chksum [4, 50] = 251 ∧ chksumAllBytes [4, 50] = 201 ∧
    chksum [4, 50] ≠ chksumAllBytes [4, 50] := by
  decide

/-- C2: a RAW_VALUE (0x80) row that declares two value bytes but is
truncated to one makes `parse_payload` raise an uncaught IndexError at
`value[1]` (modelled by `ok = false`), contradicting the claim that a
truncated payload is a silent local stop with no error raised. -/
theorem truncated_raw_value_row_raises :
    parsePayload initState [128, 2, 0] = ⟨initState, [], false⟩ := by
  decide

/-- C3 counterexample: a stream holding the well-formed packet with payload
0x01, then the garbage bytes 0xAA 0xAA 0x03, then the well-formed packet
with payload 0x02, does not yield both payloads: the garbage sync pair
frames a bogus 3-byte packet that swallows the second packet's header, so
the second payload 0x02 is never emitted. -/
theorem resync_lost_second_packet :
    framePackets (mkPacket [1] 254 ++ [170, 170, 3] ++ mkPacket [2] 253) =
      [[1], [170, 170, 1]] ∧
    [2] ∉ framePackets (mkPacket [1] 254 ++ [170, 170, 3] ++ mkPacket [2] 253) := by
  decide

/-- C3 amended: for every two framed packets separated by garbage that
contains no two consecutive 0xAA bytes, the listener loop emits exactly the
two payloads (any checksum bytes, since checksums are not checked). -/
theorem resync_after_garbage (p1 p2 g : List Nat) (c1 c2 : Nat)
    (h1 : p1.length ≤ 169) (h2 : p2.length ≤ 169) (hg : noTwoSync g = true) :
    framePackets (mkPacket p1 c1 ++ g ++ mkPacket p2 c2) = [p1, p2] := by
  rw [List.append_assoc]
  rw [fp_mk p1 c1 _ h1]
  have hmk : g ++ mkPacket p2 c2 = g ++ (mkPacket p2 c2 ++ []) := by simp
  rw [hmk, fp_hunt g.length g le_rfl hg p2 c2 [] h2]
  rfl

/-- Witness for C3 amended at a concrete stream with garbage 0x07 0xAA 0x09. -/
theorem resync_after_garbage_witness :
    ([4, 50] : List Nat).length ≤ 169 ∧ noTwoSync [7, 170, 9] = true ∧
    framePackets (mkPacket [4, 50] 201 ++ [7, 170, 9] ++ mkPacket [2] 253) =
      [[4, 50], [2]] :=
  ⟨by decide, by decide,
    resync_after_garbage [4, 50] [2] [7, 170, 9] 201 253 (by decide) (by decide)
      (by decide)⟩

/-- C4: a framed packet whose trailing checksum byte differs from the
computed checksum still has its payload emitted, identically to a packet
carrying the matching checksum (the comparison at line 80 is disabled via
the constant-true condition). -/
theorem checksum_mismatch_payload_still_emitted (p : List Nat) (c : Nat)
    (hl : p.length ≤ 169) (_hc : c ≠ chksum p) :
    framePackets (mkPacket p c) = [p] ∧
    framePackets (mkPacket p c) = framePackets (mkPacket p (chksum p)) := by
  have e1 : framePackets (mkPacket p c) = [p] := by
    have := fp_mk p c [] hl
    simpa using this
  have e2 : framePackets (mkPacket p (chksum p)) = [p] := by
    have := fp_mk p (chksum p) [] hl
    simpa using this
  exact ⟨e1, by rw [e1, e2]⟩

/-- Witness for C4 at payload 0x04 0x32 with wrong checksum byte 0. -/
theorem checksum_mismatch_witness :
    (0 : Nat) ≠ chksum [4, 50] ∧ framePackets (mkPacket [4, 50] 0) = [[4, 50]] :=
  ⟨by decide,
    (checksum_mismatch_payload_still_emitted [4, 50] 0 (by decide) (by decide)).1⟩

/-- C5: for every starting state and sequence of POOR_SIGNAL rows, the
fired callbacks are exactly those of the zero/non-zero crossing rule
(`poorTrace`): poor-signal-entered exactly where the stored value goes
from 0 to positive, good-signal-restored exactly where it goes from
positive to 0; in particular, from a state with poorSignal 0, the value
sequence 0,0,5,5,0 fires each of the two callbacks exactly once. -/
theorem poor_signal_edge_triggering (s : HState) (vs : List Nat) :
    (parsePayload s (poorPayload vs)).events = (poorTrace s.poorSignal vs).flatten ∧
    ((parsePayload { initState with poorSignal := 0 }
        (poorPayload [0, 0, 5, 5, 0])).events.filter isPoorEv).length = 1 ∧
    ((parsePayload { initState with poorSignal := 0 }
        (poorPayload [0, 0, 5, 5, 0])).events.filter isGoodEv).length = 1 :=
  ⟨poor_aux vs s, by decide, by decide⟩

/-- C6: a RAW_VALUE row whose value holds at least two bytes stores the
signed 16-bit big-endian reconstruction of its first two value bytes
(v0*256+v1, minus 65536 when at least 32768) and fires raw-value with it;
the result always lies between -32768 and 32767, with 0x7FFF, 0x8000 and
0x0001 reconstructing to 32767, -32768 and 1. -/
theorem raw_value_signed_reconstruction (v0 v1 : Nat) (h0 : v0 < 256)
    (h1 : v1 < 256) :
    (∀ (s : HState) (vrest : List Nat),
        parsePayload s (128 :: (vrest.length + 2) :: v0 :: v1 :: vrest) =
          ⟨{ s with rawValue := sint16 v0 v1 }, [Ev.rawValue (sint16 v0 v1)], true⟩) ∧
    (-32768 ≤ sint16 v0 v1 ∧ sint16 v0 v1 ≤ 32767) ∧
    sint16 127 255 = 32767 ∧ sint16 128 0 = -32768 ∧ sint16 0 1 = 1 := by
  refine ⟨?_, ?_, by decide, by decide, by decide⟩
  · intro s vrest
    show dispatchRows s
      (decode (128 :: (vrest.length + 2) :: (v0 :: v1 :: vrest))) = _
    rw [decode_multi 128 _ _ (by omega)]
    have ht : (v0 :: v1 :: vrest).take (vrest.length + 2) = v0 :: v1 :: vrest := by
      apply List.take_of_length_le
      simp
    have hd : (v0 :: v1 :: vrest).drop (vrest.length + 2) = [] := by
      apply List.drop_eq_nil_of_le
      simp
    rw [ht, hd]
    have hrow : dispatchRow s ⟨0, 128, vrest.length + 2, v0 :: v1 :: vrest⟩ =
        some ({ s with rawValue := sint16 v0 v1 }, [Ev.rawValue (sint16 v0 v1)]) := by
      simp [dispatchRow]
    rw [dispatchRows_cons _ _ _ _ _ hrow]
    rfl
  · have hle : v0 * 256 + v1 ≤ 65535 := by omega
    unfold sint16
    by_cases hcase : 32768 ≤ v0 * 256 + v1
    · rw [if_pos hcase]
      push_cast
      omega
    · rw [if_neg hcase]
      push_cast
      omega

/-- Witness for C6 at the value bytes 0x7F 0xFF. -/
theorem raw_value_signed_witness :
    parsePayload initState [128, 2, 127, 255] =
      ⟨{ initState with rawValue := sint16 127 255 },
       [Ev.rawValue (sint16 127 255)], true⟩ ∧
    sint16 127 255 = 32767 :=
  ⟨(raw_value_signed_reconstruction 127 255 (by decide) (by decide)).1 initState [],
    by decide⟩

/-- C7: STANDBY_SCAN rows set status to scanning exactly when the first
value byte is truthy and to standby otherwise (also when the value is
empty), fire the corresponding callback only when the assignment changes
the status, and the value sequence 1,1,0,1 fires scanning-entered exactly
on its first and fourth rows. -/
theorem standby_scan_edge_triggering (s : HState) (vs : List Nat) (k n : Nat)
    (value : List Nat) :
    (parsePayload s (stdPayload vs)).events = (statusTrace s.status vs).flatten ∧
    dispatchRow s ⟨k, 212, n, value⟩ =
      some (if value.headD 0 ≠ 0 then
              ({ s with status := some Status.scanning },
               if s.status = some Status.scanning then [] else [Ev.scanning])
            else
              ({ s with status := some Status.standby },
               if s.status = some Status.standby then [] else [Ev.standby])) ∧
    statusTrace none [1, 1, 0, 1] = [[Ev.scanning], [], [Ev.standby], [Ev.scanning]] ∧
    (parsePayload initState (stdPayload [1, 1, 0, 1])).events =
      [Ev.scanning, Ev.standby, Ev.scanning] :=
  ⟨status_aux vs s, dispatch_std s k n value, by decide, by decide⟩

/-- C8: a HEADSET_CONNECTED row unconditionally sets status to connected
and headsetId to the hex encoding of its value bytes, fires the
headset-connected callbacks exactly when the status was not already
connected, and a payload with two consecutive HEADSET_CONNECTED rows fires
them at most once. -/
theorem headset_connected_edge_triggering (s : HState) (k n : Nat)
    (value v1 v2 : List Nat) :
    dispatchRow s ⟨k, 208, n, value⟩ =
      some ({ s with status := some Status.connected,
                     headsetId := some (bytesHex value) },
            if s.status = some Status.connected then [] else [Ev.connected]) ∧
    (((parsePayload s
        (208 :: v1.length :: (v1 ++ 208 :: v2.length :: v2))).events.filter
          isConnEv).length ≤ 1) := by
  refine ⟨dispatch_conn s k n value, ?_⟩
  show (((dispatchRows s
    (decode (208 :: v1.length :: (v1 ++ 208 :: v2.length :: v2)))).events.filter
      isConnEv).length ≤ 1)
  rw [decode_multi 208 _ _ (by omega)]
  have ht1 : (v1 ++ 208 :: v2.length :: v2).take v1.length = v1 :=
    List.take_left v1 _
  have hd1 : (v1 ++ 208 :: v2.length :: v2).drop v1.length =
      208 :: v2.length :: v2 :=
    List.drop_left v1 _
  rw [ht1, hd1]
  rw [decode_multi 208 _ _ (by omega)]
  have ht2 : v2.take v2.length = v2 := List.take_length v2
  have hd2 : v2.drop v2.length = [] := List.drop_length v2
  rw [ht2, hd2]
  rw [dispatchRows_cons _ _ _ _ _ (dispatch_conn s 0 v1.length v1)]
  rw [dispatchRows_cons _ _ _ _ _ (dispatch_conn _ 0 v2.length v2)]
  have hnil : ∀ s0 : HState, dispatchRows s0 (decode []) = ⟨s0, [], true⟩ :=
    fun s0 => rfl
  by_cases hs : s.status = some Status.connected
  · simp [hs, isConnEv, hnil]
  · simp [hs, isConnEv, hnil]

/-- C9: dispatching any decoded row whose code is neither HEADSET_CONNECTED
(0xd0) nor STANDBY_SCAN (0xd4) leaves the status field unchanged. -/
theorem status_unchanged_by_other_rows (s : HState) (r : Row)
    (h1 : r.code ≠ 208) (h2 : r.code ≠ 212) :
    ∀ out, dispatchRow s r = some out → out.1.status = s.status := by
  intro out hout
  simp only [dispatchRow] at hout
  split_ifs at hout <;>
    first
      | exact absurd ‹r.code = 208› h1
      | exact absurd ‹r.code = 212› h2
      | (injection hout with h; subst h; rfl)
      | (split at hout <;>
          first
            | (injection hout with h; subst h; rfl)
            | exact Option.noConfusion hout)

/-- Witness for C9 at a REQUEST_DENIED row against the initial state. -/
theorem status_unchanged_witness :
    dispatchRow initState ⟨0, 211, 0, []⟩ = some (initState, [Ev.requestDenied]) ∧
    initState.status = initState.status :=
  ⟨by decide,
    status_unchanged_by_other_rows initState ⟨0, 211, 0, []⟩ (by decide) (by decide)
      (initState, [Ev.requestDenied]) (by decide)⟩

/-- C10: the row-reading loop of parse_payload needs at most one iteration
per payload byte (every iteration strictly advances the index, also for a
multi-byte row declaring vlength 0), so any fuel beyond the payload length
yields the same rows: parsing terminates on every finite payload, and the
result is the pure function `parsePayload` of the payload and the starting
state; a payload of two vlength-0 rows decodes and dispatches completely. -/
theorem parse_payload_terminates (p : List Nat) (fuel : Nat)
    (h : p.length < fuel) :
    decodeF fuel p = decode p ∧
    parsePayload initState [209, 0, 209, 0] =
      ⟨initState, [Ev.notFound none, Ev.notFound none], true⟩ :=
  ⟨decodeF_inv fuel p h, by decide⟩

/-- Witness for C10 at a four-byte payload with fuel 5. -/
theorem parse_payload_terminates_witness :
    ([209, 0, 209, 0] : List Nat).length < 5 ∧
    decodeF 5 [209, 0, 209, 0] = decode [209, 0, 209, 0] :=
  ⟨by decide, (parse_payload_terminates [209, 0, 209, 0] 5 (by decide)).1⟩
